import Mathlib

/-!
Verification of the group-roster / audit-log automation scripts.

The development shallowly embeds the Python sources
`.github/workflows/jira_group_users.py`, `.github/workflows/fetch_audit_logs.py`
and `restore_user.py` (both copies) into Lean.  HTTP endpoints are modelled as
oracles (functions from request index to response), machine loops as fuel-based
or structural recursion, Python dictionaries as association lists, Python sets
as finite sets, and JSON objects as structures with optional fields.  The file
first gives all definitions, then all lemmas and theorems.
-/

/-- Python list slicing loop `l[i:i+k]` for `i = 0, k, 2k, ...`: the list of
consecutive chunks of size `k` (the last one possibly shorter).  Used with
`k = 100` by `fetch_emails_in_batches` and with `k = 50` for the pages of the
user-search directory. -/
def chunksOf (k : Nat) : List α → List (List α)
  | [] => []
  | x :: xs => (x :: xs.take (k - 1)) :: chunksOf k (xs.drop (k - 1))
termination_by l => l.length
decreasing_by
  simp only [List.length_drop, List.length_cons]
  omega

namespace JGU

/-- Raw user object of one page of the Jira `group/member` response.
Either JSON field may be absent, which the embedding models with `Option`. -/
structure RawUser where
  accountId : Option String
  displayName : Option String
deriving DecidableEq

/-- The record built by `get_users_in_group` for each raw user.  The source
reads `user.get("accountId")` (no default, an absent key yields `None`) and
`user.get("displayName", "")` (absent key defaults to the empty string). -/
structure User where
  accountId : Option String
  displayName : String
deriving DecidableEq

/-- Record construction performed inside the page loop of
`get_users_in_group`: `accountId` is passed through unchanged (possibly
`None`), `displayName` falls back to `""`. -/
def mkUserRecord (u : RawUser) : User :=
  { accountId := u.accountId, displayName := u.displayName.getD "" }

/-- One page response of the `group/member` endpoint, as consumed by the
source: `data.get("values", [])` and `data.get("isLast", True)`.  An absent
`isLast` key is modelled by `none` and read with `Option.getD true`. -/
structure PageResponse where
  values : List RawUser
  isLast : Option Bool
deriving DecidableEq

/-- Fixed page size `max_results = 50` of `get_users_in_group`. -/
def maxResults : Nat := 50

/-- The `while True` pagination loop of `get_users_in_group`, run against an
API modelled by the oracle `api` mapping the page index
(`startAt / maxResults`) to the page response.  Each iteration issues one page
request, appends the page's user records, and leaves the loop exactly when
`data.get("isLast", True)` is true.  `fuel` bounds the number of iterations;
`none` means the fuel ran out before the loop terminated.  Starting from page
index 0, a successful run returns the number of page requests issued together
with the accumulated user list. -/
def getUsersRun (api : Nat → PageResponse) : Nat → Nat → List User → Option (Nat × List User)
  | 0, _, _ => none
  | fuel + 1, pageIdx, acc =>
    let resp := api pageIdx
    let acc2 := acc ++ resp.values.map mkUserRecord
    if resp.isLast.getD true then some (pageIdx + 1, acc2)
    else getUsersRun api fuel (pageIdx + 1) acc2

/-- `get_users_in_group`, entered with `start_at = 0` and an empty
accumulator. -/
def get_users_in_group (api : Nat → PageResponse) (fuel : Nat) : Option (Nat × List User) :=
  getUsersRun api fuel 0 []

/-- An honest paginated server for a fixed member list: page `i` holds
members `i*50 .. i*50+49`, and the `isLast` flag is set exactly on the final
page (the page whose end reaches the total member count). -/
def pagesOf (members : List RawUser) (i : Nat) : PageResponse :=
  { values := (members.drop (i * maxResults)).take maxResults,
    isLast := some (decide (members.length ≤ (i + 1) * maxResults)) }

/-- Number of page requests the loop issues for `n` remaining members:
one request even when `n = 0`, and the ceiling of `n / 50` otherwise. -/
def ceilPages (n : Nat) : Nat := max 1 ((n + 49) / 50)

/-- A server whose first page has an empty `values` array together with
`isLast = false`, and whose second page is final.  Used to decide whether an
empty page alone stops the pagination loop. -/
def emptyPageApi : Nat → PageResponse
  | 0 => { values := [], isLast := some false }
  | _ + 1 => { values := [{ accountId := some "a1", displayName := some "Alice" }],
               isLast := some true }

/-- The `all_contributors = contrib_int + contrib_ext` concatenation of
`main` (the same shape is used for the viewers bucket). -/
def all_contributors (contrib_int contrib_ext : List User) : List User :=
  contrib_int ++ contrib_ext

/-- `user_groups[acct_id].add(full_group_name)` together with the preceding
`user_groups[acct_id] = set()` initialisation of an unseen key: update of the
association list modelling the `user_groups` dictionary. -/
def insertGroup : List (String × Finset String) → String → String → List (String × Finset String)
  | [], a, g => [(a, {g})]
  | (b, s) :: rest, a, g =>
    if b = a then (b, insert g s) :: rest else (b, s) :: insertGroup rest a g

/-- `add_group_name(user_list, full_group_name)` of `main`: walks the user
list once; a user whose `accountId` is falsy (absent or empty) is skipped,
every other user gets the group name inserted into its per-account set. -/
def addGroupName : List (String × Finset String) → List User → String → List (String × Finset String)
  | ug, [], _ => ug
  | ug, u :: rest, g =>
    match u.accountId with
    | none => addGroupName ug rest g
    | some a =>
      if a = "" then addGroupName ug rest g
      else addGroupName (insertGroup ug a g) rest g

/-- The five `add_group_name` calls of `main`, in source order (managers,
internal contributors, external contributors, internal viewers, external
viewers), starting from the empty dictionary. -/
def buildUserGroups (managers ci ce vi ve : List User)
    (gm gci gce gvi gve : String) : List (String × Finset String) :=
  addGroupName (addGroupName (addGroupName (addGroupName
    (addGroupName [] managers gm) ci gci) ce gce) vi gvi) ve gve

/-- One entry of the `data` array of the admin bulk user-search response. -/
structure EmailEntry where
  accountId : Option String
  email : Option String
deriving DecidableEq

/-- Python dictionary assignment `m[k] = v` on an association list:
overwrite the existing binding or append a new one. -/
def dictInsert : List (String × String) → String → String → List (String × String)
  | [], k, v => [(k, v)]
  | (k2, v2) :: rest, k, v =>
    if k2 = k then (k2, v) :: rest else (k2, v2) :: dictInsert rest k v

/-- The per-entry accumulation of `fetch_emails_in_batches`:
`email = entry.get("email") or ""` and the map is written only under a
truthy `accountId`. -/
def updateEmailMap (m : List (String × String)) : List EmailEntry → List (String × String)
  | [] => m
  | e :: rest =>
    match e.accountId with
    | none => updateEmailMap m rest
    | some a =>
      if a = "" then updateEmailMap m rest
      else updateEmailMap (dictInsert m a (e.email.getD "")) rest

/-- The chunking loop of `fetch_emails_in_batches`
(`range(0, len(account_ids), 100)` with slice `account_ids[i:i+100]`): the
list of bulk request payloads, in order of issue, one request per chunk. -/
def batchRequests (account_ids : List String) : List (List String) :=
  chunksOf 100 account_ids

/-- `fetch_emails_in_batches` against a response oracle `respond`: one bulk
request per chunk, each response folded into the accountId-to-email map. -/
def fetch_emails_in_batches (respond : List String → List EmailEntry)
    (account_ids : List String) : List (String × String) :=
  (batchRequests account_ids).foldl (fun m chunk => updateEmailMap m (respond chunk)) []

end JGU

namespace PDF

/-- `nb_lines` of `jira_group_users.py`: the effective width is the column
width minus 4; a non-positive effective width yields one line, otherwise the
number of lines is `math.ceil` of the measured text width over the effective
width (the float division is modelled with exact rational arithmetic).
`measure` stands for `pdf.get_string_width` under the active font. -/
def nb_lines (measure : String → ℚ) (text : String) (colWidth : ℚ) : ℤ :=
  if colWidth - 4 ≤ 0 then 1
  else Int.ceil (measure text / (colWidth - 4))

/-- What `table_row` hands to the renderer for one column: the cell text is
passed to `pdf.multi_cell` verbatim (no blank-line padding is appended), and
the `nb_lines` estimate for the cell is recorded alongside. -/
structure CellDraw where
  text : String
  lines : ℤ
deriving DecidableEq

/-- Result of `table_row`: the per-column cells as drawn, and the row height
by which the cursor is advanced at the end (`set_xy(x0, y0 + row_height)`). -/
structure RowRender where
  cells : List CellDraw
  rowHeight : ℚ
deriving DecidableEq

/-- `table_row` of `jira_group_users.py`: computes `max_num_lines` as the
maximum of the per-column `nb_lines` estimates starting from 1, sets
`row_height = max_num_lines * line_height`, and prints every column with
`multi_cell(w, line_height, text)` on the unmodified cell text. -/
def table_row (measure : String → ℚ) (colTexts : List String) (colWidths : List ℚ)
    (lineHeight : ℚ) : RowRender :=
  let counts := List.zipWith (fun t w => nb_lines measure t w) colTexts colWidths
  let maxNumLines := counts.foldl (fun m n => if n > m then n else m) 1
  { cells := List.zipWith
      (fun t w => { text := t, lines := nb_lines measure t w }) colTexts colWidths,
    rowHeight := (maxNumLines : ℚ) * lineHeight }

/-- A width measure for concrete examples: one width unit per character. -/
def demoMeasure (s : String) : ℚ := s.length

end PDF

namespace Trace

/-- Externally visible step of a script run. -/
inductive Event where
  | networkCall (endpoint : String)
  | configError (message : String)
deriving DecidableEq

/-- Python truthiness of an optional environment string: an unset variable
(`None`) and the empty string are falsy. -/
def truthy : Option String → Bool
  | none => false
  | some s => !(s == "")

/-- Environment read by `main` of `jira_group_users.py`.  `JIRA_SITE` and
`ORG_ID` are read with hardcoded defaults, the other four without. -/
structure JiraEnv where
  jiraSiteVar : Option String
  basicAuth : Option String
  bearerToken : Option String
  projectKey : Option String
  issueKey : Option String
  orgIdVar : Option String
deriving DecidableEq

/-- `os.environ.get("JIRA_SITE", "https://prudential-ps.atlassian.net")`. -/
def jiraSiteValue (env : JiraEnv) : String :=
  env.jiraSiteVar.getD "https://prudential-ps.atlassian.net"

/-- `os.environ.get("ORG_ID", "b4235a52-...")`. -/
def orgIdValue (env : JiraEnv) : String :=
  env.orgIdVar.getD "b4235a52-bd04-12a0-j718-68bd06255171"

/-- The `not all([jira_site, basic_auth, bearer_token, project_key,
issue_key, org_id])` validation of `main`: true when any of the six values
is falsy.  With the two defaulted reads, only the four plain reads can be. -/
def jiraEnvMissing (env : JiraEnv) : Bool :=
  !(truthy (some (jiraSiteValue env)) && truthy env.basicAuth &&
    truthy env.bearerToken && truthy env.projectKey &&
    truthy env.issueKey && truthy (some (orgIdValue env)))

/-- The fixed message of the ValueError raised by `main` of
`jira_group_users.py`; it names all six variables. -/
def jiraMissingMsg : String :=
  "Missing one or more required env vars: JIRA_SITE, BASIC_AUTH, BEARER_TOKEN, PROJECT_KEY, ISSUE_KEY, ORG_ID"

/-- `main` of `jira_group_users.py` up to its first network request: the
validation runs first and raises `ValueError(jiraMissingMsg)`; only in the
non-raising branch does the run proceed, beginning with the first page
request of `get_users_in_group` for the managers group.  `runRest` abstracts
the remainder of the run, which depends on the live API responses. -/
def jira_main_trace (env : JiraEnv) (runRest : List Event) : List Event :=
  if jiraEnvMissing env then [Event.configError jiraMissingMsg]
  else Event.networkCall "GET /rest/api/3/group/member" :: runRest

/-- The `while True` loop shared by `fetch_jira_audit_logs` and
`fetch_confluence_audit_logs`: one request per iteration against the batch
oracle `api`; the loop leaves after the first batch shorter than
`limit = 1000`.  Returns (requests issued, accumulated records); `none` when
the fuel ran out first. -/
def auditFetchRun (api : Nat → List α) : Nat → Nat → List α → Option (Nat × List α)
  | 0, _, _ => none
  | fuel + 1, pageIdx, acc =>
    let batch := api pageIdx
    if batch.length < 1000 then some (pageIdx + 1, acc ++ batch)
    else auditFetchRun api fuel (pageIdx + 1) (acc ++ batch)

/-- Message of the exception raised when `JIRA_BASIC_TOKEN` is unset. -/
def jiraTokenMsg : String := "Missing required environment variable: JIRA_BASIC_TOKEN"

/-- Message of the exception raised when `GOOGLE_CLOUD_BUCKET` is unset. -/
def bucketMsg : String := "GOOGLE_CLOUD_BUCKET environment variable not set"

/-- `main` of `fetch_audit_logs.py` as an event trace.  The
`JIRA_BASIC_TOKEN` check inside `fetch_jira_audit_logs` runs before its
first request (and the identical check in `fetch_confluence_audit_logs`
reads the same environment, so it cannot fire afterwards); the two paginated
fetches precede the `GOOGLE_CLOUD_BUCKET` check, which precedes the two
uploads.  Local CSV writes emit no event.  When a fetch loop exhausts its
fuel the trace closes with the requests it made so far. -/
def fetch_audit_logs_main_trace (token bucket : Option String)
    (jiraApi confApi : Nat → List α) (fuel : Nat) : List Event :=
  if !truthy token then [Event.configError jiraTokenMsg]
  else
    match auditFetchRun jiraApi fuel 0 [] with
    | none => List.replicate fuel (Event.networkCall "GET /rest/api/3/auditing/record")
    | some (rJ, _) =>
      List.replicate rJ (Event.networkCall "GET /rest/api/3/auditing/record") ++
        match auditFetchRun confApi fuel 0 [] with
        | none => List.replicate fuel (Event.networkCall "GET /wiki/rest/api/audit")
        | some (rC, _) =>
          List.replicate rC (Event.networkCall "GET /wiki/rest/api/audit") ++
            if !truthy bucket then [Event.configError bucketMsg]
            else [Event.networkCall "GCS upload jira csv",
                  Event.networkCall "GCS upload confluence csv"]

end Trace

namespace RU

/-- A user object of the `/rest/api/3/users/search` response; either field
may be absent. -/
structure DirUser where
  emailAddress : Option String
  accountId : Option String
deriving DecidableEq

/-- Character-by-character model of `str.lower` (exact on ASCII data). -/
def lowerAscii (s : String) : String := String.mk (s.data.map Char.toLower)

/-- The match test of `fetch_account_id`:
`user.get("emailAddress", "").lower() == TARGET_EMAIL.lower()`. -/
def emailMatches (target : String) (u : DirUser) : Bool :=
  lowerAscii (u.emailAddress.getD "") == lowerAscii target

/-- The `while True` loop of `fetch_account_id` over the successive pages of
`/rest/api/3/users/search`.  `pages` holds the non-empty pages the server
returns in order; one further request past their end returns the empty list
(`if not users: break`).  `found` carries `found_account_id` across
iterations: the `for` loop sets it to `user.get("accountId", "")` at the
first e-mail match of a page, and the outer loop leaves only when that value
is truthy.  Returns (requests issued, `found_account_id`). -/
def fetchAccountIdRun (target : String) : List (List DirUser) → Option String → Nat × Option String
  | [], found => (1, found)
  | page :: rest, found =>
    if page.isEmpty then (1, found)
    else
      match page.find? (emailMatches target) with
      | some u =>
        if u.accountId.getD "" == "" then
          let r := fetchAccountIdRun target rest (some (u.accountId.getD ""))
          (r.1 + 1, r.2)
        else (1, some (u.accountId.getD ""))
      | none =>
        let r := fetchAccountIdRun target rest found
        (r.1 + 1, r.2)

/-- `fetch_account_id` of `restore_user.py` against a user directory served
in pages of `max_results = 50`, instrumented with the number of page
requests issued alongside the returned `found_account_id`. -/
def fetch_account_id (target : String) (directory : List DirUser) : Nat × Option String :=
  fetchAccountIdRun target (chunksOf 50 directory) none

/-- `TARGET_EMAIL = os.environ.get("TARGET_EMAIL", "default@example.com")`
of `restore_user.py`: the target e-mail is read with a hardcoded default,
so a missing variable is substituted rather than raising a configuration
error. -/
def targetEmailValue (targetEmailVar : Option String) : String :=
  targetEmailVar.getD "default@example.com"

end RU

namespace FAL

/-- A JSON-ish value as it reaches `convert_ms_to_iso` from a Confluence
audit record: null, an integer, or a string. -/
inductive PyVal where
  | null
  | int (n : ℤ)
  | str (s : String)
deriving DecidableEq

/-- Whether a value is a string. -/
def PyVal.isStr : PyVal → Bool
  | .str _ => true
  | _ => false

/-- ASCII decimal digit value. -/
def digitVal (c : Char) : Option ℕ :=
  if c.isDigit then some (c.toNat - 48) else none

/-- Digit run after the first digit: underscores are accepted only between
digits (as in Python's int literal grammar for str arguments). -/
def parseDigitsCore : ℕ → List Char → Option ℕ
  | acc, [] => some acc
  | acc, c :: rest =>
    if c = '_' then
      match rest with
      | [] => none
      | d :: rest2 =>
        match digitVal d with
        | some v => parseDigitsCore (acc * 10 + v) rest2
        | none => none
    else
      match digitVal c with
      | some v => parseDigitsCore (acc * 10 + v) rest
      | none => none

/-- Unsigned decimal run: must begin with a digit. -/
def parseUnsignedInt : List Char → Option ℕ
  | [] => none
  | c :: rest =>
    match digitVal c with
    | some v => parseDigitsCore v rest
    | none => none

/-- Python `str.strip` whitespace (ASCII subset). -/
def isPySpace (c : Char) : Bool :=
  c == ' ' || c == '\t' || c == '\n' || c == '\x0d' || c == '\x0b' || c == '\x0c'

/-- `int(s)` on a string: surrounding whitespace is ignored, then an
optional sign and a nonempty digit run (ASCII digits modelled). -/
def pyIntOfString (s : String) : Option ℤ :=
  let cs := (((s.data.dropWhile isPySpace).reverse.dropWhile isPySpace).reverse)
  match cs with
  | '+' :: rest => (parseUnsignedInt rest).map (fun n => (n : ℤ))
  | '-' :: rest => (parseUnsignedInt rest).map (fun n => -(n : ℤ))
  | rest => (parseUnsignedInt rest).map (fun n => (n : ℤ))

/-- `int(ms)` over the modelled value domain: `int(None)` raises (hence
`none`), an integer passes through, a string is parsed. -/
def pyInt : PyVal → Option ℤ
  | .null => none
  | .int n => some n
  | .str s => pyIntOfString s

/-- Proleptic Gregorian date (year, month, day) of a day count relative to
1970-01-01, by the standard civil-from-days computation.  Within the range
guarded by `msInRange` every division below has nonnegative operands. -/
def civilFromDays (z0 : ℤ) : ℤ × ℤ × ℤ :=
  let z := z0 + 719468
  let era := z / 146097
  let doe := z - era * 146097
  let yoe := (doe - doe / 1460 + doe / 36524 - doe / 146096) / 365
  let y := yoe + era * 400
  let doy := doe - (365 * yoe + yoe / 4 - yoe / 100)
  let mp := (5 * doy + 2) / 153
  let d := doy - (153 * mp + 2) / 5 + 1
  let m := mp + (if mp < 10 then 3 else -9)
  (y + (if m ≤ 2 then 1 else 0), m, d)

/-- Zero-padding to two digits. -/
def pad2 (n : ℤ) : String := (if n < 10 then "0" else "") ++ toString n

/-- Zero-padding of a year to four digits. -/
def pad4 (n : ℤ) : String :=
  (if n < 10 then "000" else if n < 100 then "00" else if n < 1000 then "0" else "") ++ toString n

/-- Zero-padding of a microsecond count to six digits. -/
def pad6 (n : ℤ) : String :=
  (if n < 10 then "00000" else if n < 100 then "0000" else if n < 1000 then "000"
   else if n < 10000 then "00" else if n < 100000 then "0" else "") ++ toString n

/-- `datetime.fromtimestamp(ms / 1000, timezone.utc).isoformat()` for an
epoch-millisecond count, with the division taken exactly: date and time of
day by floor division on seconds, microseconds appended only when nonzero,
and the fixed `+00:00` UTC offset. -/
def isoOfMs (ms : ℤ) : String :=
  let usTotal := ms * 1000
  let sec := usTotal / 1000000
  let us := usTotal % 1000000
  let days := sec / 86400
  let sod := sec % 86400
  let ymd := civilFromDays days
  pad4 ymd.1 ++ "-" ++ pad2 ymd.2.1 ++ "-" ++ pad2 ymd.2.2 ++ "T" ++
    pad2 (sod / 3600) ++ ":" ++ pad2 (sod % 3600 / 60) ++ ":" ++ pad2 (sod % 60) ++
    (if us = 0 then "" else "." ++ pad6 us) ++ "+00:00"

/-- The epoch-millisecond range `datetime.fromtimestamp` accepts under UTC:
instants from 0001-01-01T00:00:00 to 9999-12-31T23:59:59.999 (outside it the
library raises, e.g. `ValueError: year ... is out of range`). -/
def msInRange (ms : ℤ) : Bool :=
  -62135596800000 ≤ ms && ms ≤ 253402300799999

/-- `convert_ms_to_iso` of `fetch_audit_logs.py`: `int(ms)` then
`datetime.fromtimestamp(ms_int / 1000, timezone.utc).isoformat()` inside a
`try`; any failure (unparsable input, or an instant the datetime library
rejects) is caught by the bare `except` and the input is returned
unchanged. -/
def convert_ms_to_iso (v : PyVal) : PyVal :=
  match pyInt v with
  | none => v
  | some ms => if msInRange ms then .str (isoOfMs ms) else v

end FAL

namespace CSV

/-- A record as handed to `csv.DictWriter`: an association list of field
name to cell value (the scripts' dicts have unique keys; lookup takes the
first binding). -/
abbrev Rec := List (String × String)

/-- The key set of one record. -/
def recKeys (r : Rec) : List String := r.map Prod.fst

/-- Code-point lexicographic comparison of character lists: the order
Python's `sorted` applies to strings. -/
def lexLe : List Char → List Char → Bool
  | [], _ => true
  | _ :: _, [] => false
  | a :: as, b :: bs => if a < b then true else if a = b then lexLe as bs else false

/-- The ascending string order of `sorted(all_keys)`. -/
def strLe (a b : String) : Prop := lexLe a.data b.data = true

/-- Comparisons in `strLe` are decidable (it is a Boolean test). -/
def strLeDec : DecidableRel strLe :=
  fun a b => inferInstanceAs (Decidable (lexLe a.data b.data = true))

/-- `keys = sorted(all_keys)` of `write_csv`: the union of the key sets of
all records, deduplicated and sorted ascending. -/
def allKeysSorted (records : List Rec) : List String :=
  @List.insertionSort String strLe strLeDec ((records.flatMap recKeys).dedup)

/-- One output row of `DictWriter.writerow` for a record: one cell per field
name, an absent field producing the empty cell (the default `restval` comes
out as an empty string once written). -/
def csvRow (keys : List String) (r : Rec) : List String :=
  keys.map (fun k => ((r.lookup k).getD ""))

/-- `write_csv` of `fetch_audit_logs.py`: `none` models the early return on
an empty record list, in which no file is created; otherwise the written
file is the header row followed by one row per record, in input order. -/
def write_csv (records : List Rec) : Option (List String × List (List String)) :=
  if records = [] then none
  else some (allKeysSorted records, records.map (csvRow (allKeysSorted records)))

end CSV

namespace JGU

lemma ceilPages_pos (n : Nat) : 1 ≤ ceilPages n := by
  simp [ceilPages]

lemma ceilPages_of_le (n : Nat) (h : n ≤ 50) : ceilPages n = 1 := by
  simp only [ceilPages]
  omega

lemma ceilPages_of_gt (n : Nat) (h : 50 < n) : ceilPages n = 1 + ceilPages (n - 50) := by
  simp only [ceilPages]
  omega

/-- Main pagination lemma: against the honest server `pagesOf members`, the
loop started at page `k` with accumulator `acc` issues exactly
`ceilPages (members.length - k * 50)` further page requests and appends
exactly the members from position `k * 50` on, in order. -/
lemma getUsersRun_pagesOf (members : List RawUser) :
    ∀ (fuel k : Nat) (acc : List User),
      ceilPages (members.length - k * 50) ≤ fuel →
      getUsersRun (pagesOf members) fuel k acc =
        some (k + ceilPages (members.length - k * 50),
              acc ++ (members.drop (k * 50)).map mkUserRecord) := by
  intro fuel
  induction fuel with
  | zero =>
    intro k acc h
    have := ceilPages_pos (members.length - k * 50)
    omega
  | succ fuel ih =>
    intro k acc h
    by_cases hlast : members.length ≤ (k + 1) * 50
    · have hrem : members.length - k * 50 ≤ 50 := by omega
      have htake : (members.drop (k * maxResults)).take maxResults =
          members.drop (k * maxResults) := by
        apply List.take_of_length_le
        simp [List.length_drop, maxResults]
        omega
      simp only [getUsersRun, pagesOf, Option.getD_some, maxResults] at htake ⊢
      rw [if_pos (by simpa using hlast)]
      rw [htake, ceilPages_of_le _ hrem]
    · have hgt : 50 < members.length - k * 50 := by omega
      have hfuel2 : ceilPages (members.length - (k + 1) * 50) ≤ fuel := by
        have := ceilPages_of_gt _ hgt
        have harg : members.length - k * 50 - 50 = members.length - (k + 1) * 50 := by omega
        rw [harg] at this
        omega
      have hstep := ih (k + 1) (acc ++ ((members.drop (k * 50)).take 50).map mkUserRecord) hfuel2
      simp only [getUsersRun, pagesOf, Option.getD_some, maxResults]
      rw [if_neg (by simpa using hlast)]
      rw [hstep]
      have hsplit : ((members.drop (k * 50)).take 50).map mkUserRecord ++
          (members.drop ((k + 1) * 50)).map mkUserRecord =
          (members.drop (k * 50)).map mkUserRecord := by
        rw [← List.map_append]
        congr 1
        have hdd : members.drop ((k + 1) * 50) = (members.drop (k * 50)).drop 50 := by
          rw [List.drop_drop]
          congr 1
          ring
        rw [hdd, List.take_append_drop]
      have hcount : k + 1 + ceilPages (members.length - (k + 1) * 50) =
          k + ceilPages (members.length - k * 50) := by
        have := ceilPages_of_gt _ hgt
        have harg : members.length - k * 50 - 50 = members.length - (k + 1) * 50 := by omega
        rw [harg] at this
        omega
      rw [List.append_assoc, hsplit, hcount]

end JGU

/-- C2: for a group of `N` members served with page size 50 by a server that
sets the is-last flag on the final page, `get_users_in_group` issues exactly
`ceil(N/50)` page requests (one request when `N = 0`) and returns a list of
exactly `N` user records in page order, each user keeping its within-page
position (the result is the member list mapped through the per-user record
construction, so nothing is filtered, reordered or deduplicated). -/
theorem C2_pagination_request_count (members : List JGU.RawUser) (fuel : Nat)
    (hfuel : JGU.ceilPages members.length ≤ fuel) :
    JGU.get_users_in_group (JGU.pagesOf members) fuel =
      some ((if members.length = 0 then 1 else (members.length + 49) / 50),
            members.map JGU.mkUserRecord) ∧
    (members.map JGU.mkUserRecord).length = members.length := by
  refine ⟨?_, by simp⟩
  have h0 := JGU.getUsersRun_pagesOf members fuel 0 [] (by simpa using hfuel)
  simp only [JGU.get_users_in_group]
  rw [h0]
  simp only [Nat.zero_mul, Nat.sub_zero, List.drop_zero, List.nil_append, Nat.zero_add]
  have hc : JGU.ceilPages members.length =
      if members.length = 0 then 1 else (members.length + 49) / 50 := by
    by_cases h : members.length = 0
    · rw [if_pos h]
      simp only [JGU.ceilPages, h]
      omega
    · rw [if_neg h]
      simp only [JGU.ceilPages]
      omega
  rw [hc]

/-- Witness for C2 at a concrete group of 63 members: two page requests and
all 63 records returned. -/
theorem C2_pagination_request_count_witness :
    JGU.get_users_in_group
        (JGU.pagesOf (List.replicate 63 { accountId := some "a", displayName := some "n" })) 2 =
      some (2, List.replicate 63 { accountId := some "a", displayName := "n" }) := by
  have h := (C2_pagination_request_count
    (List.replicate 63 { accountId := some "a", displayName := some "n" }) 2 (by decide)).1
  simpa [JGU.mkUserRecord] using h

/-- C3 counterexample: a server whose first page has an empty values array
with the is-last flag false.  The claim says the loop stops at that page
(which would mean one single request and an empty result); the code keeps
going and issues a second request, returning the second page's user. -/
theorem C3_counterexample_empty_page_continues :
    JGU.get_users_in_group JGU.emptyPageApi 5 =
      some (2, [{ accountId := some "a1", displayName := "Alice" }]) ∧
    JGU.get_users_in_group JGU.emptyPageApi 5 ≠ some (1, []) := by
  constructor
  · rfl
  · decide

/-- C3 amended: the pagination loop terminates exactly when a response
reports the is-last flag as true (or omits it, the default being true); an
empty values array with the flag false does not stop the loop.  Whenever the
loop terminates after `req` requests, page `req - 1` carried a true flag and
every earlier page carried a false one. -/
theorem C3_amended_stop_iff_isLast (api : Nat → JGU.PageResponse) (fuel req : Nat)
    (users : List JGU.User)
    (h : JGU.get_users_in_group api fuel = some (req, users)) :
    1 ≤ req ∧ (api (req - 1)).isLast.getD true = true ∧
      ((List.range (req - 1)).all fun j => !(api j).isLast.getD true) = true := by
  have main : ∀ (fuel k : Nat) (acc : List JGU.User) (req : Nat) (users : List JGU.User),
      JGU.getUsersRun api fuel k acc = some (req, users) →
      k < req ∧ (api (req - 1)).isLast.getD true = true ∧
        ∀ j, k ≤ j → j + 1 < req → (api j).isLast.getD true = false := by
    intro fuel
    induction fuel with
    | zero => intro k acc req users h0; simp [JGU.getUsersRun] at h0
    | succ fuel ih =>
      intro k acc req users h0
      simp only [JGU.getUsersRun] at h0
      by_cases hflag : (api k).isLast.getD true = true
      · rw [if_pos hflag] at h0
        obtain ⟨hreq, _⟩ := Prod.mk.injEq .. ▸ Option.some.injEq _ _ ▸ h0
        refine ⟨by omega, by rw [← hreq]; simpa using hflag, ?_⟩
        intro j hkj hj
        omega
      · rw [if_neg hflag] at h0
        obtain ⟨hk, hlast, hprev⟩ := ih (k + 1) _ req users h0
        refine ⟨by omega, hlast, ?_⟩
        intro j hkj hj
        rcases Nat.lt_or_ge k j with hlt | hge
        · exact hprev j (by omega) hj
        · have : j = k := by omega
          subst this
          simpa using hflag
  obtain ⟨hk, hlast, hprev⟩ := main fuel 0 [] req users h
  refine ⟨by omega, hlast, ?_⟩
  rw [List.all_eq_true]
  intro j hj
  rw [List.mem_range] at hj
  simpa using hprev j (by omega) (by omega)

/-- Witness for C3 amended at the empty-page server: the loop stopped after
two requests, the second page's flag is true, the first page's false. -/
theorem C3_amended_stop_iff_isLast_witness :
    1 ≤ 2 ∧ (JGU.emptyPageApi (2 - 1)).isLast.getD true = true ∧
      ((List.range (2 - 1)).all fun j => !(JGU.emptyPageApi j).isLast.getD true) = true :=
  C3_amended_stop_iff_isLast JGU.emptyPageApi 5 2
    [{ accountId := some "a1", displayName := "Alice" }] (by rfl)

/-- C7 counterexample: a raw user object with both fields absent.  The
display name defaults to the empty string, but the accountId is read with a
plain `get` and stays `None` rather than defaulting to the empty string. -/
theorem C7_counterexample_accountId_not_defaulted :
    JGU.mkUserRecord { accountId := none, displayName := none } =
      { accountId := none, displayName := "" } ∧
    (JGU.mkUserRecord { accountId := none, displayName := none }).accountId ≠ some "" := by
  constructor
  · rfl
  · decide

/-- C7 amended: the per-user record always holds at least the accountId and
displayName fields; a missing displayName defaults to the empty string,
while the accountId is passed through unchanged, so a missing accountId
stays `None` instead of becoming the empty string. -/
theorem C7_amended_field_defaults (u : JGU.RawUser) :
    (JGU.mkUserRecord u).accountId = u.accountId ∧
    (JGU.mkUserRecord u).displayName = u.displayName.getD "" := by
  exact ⟨rfl, rfl⟩

lemma chunksOf_flatten_aux (k : Nat) {α : Type} :
    ∀ (n : Nat) (l : List α), l.length ≤ n → (chunksOf k l).flatten = l := by
  intro n
  induction n with
  | zero =>
    intro l h
    have hl : l = [] := List.length_eq_zero.mp (by omega)
    subst hl
    simp [chunksOf]
  | succ n ih =>
    intro l h
    match l with
    | [] => simp [chunksOf]
    | x :: xs =>
      simp only [chunksOf, List.flatten_cons]
      rw [ih (xs.drop (k - 1)) (by simp only [List.length_drop]; simp only [List.length_cons] at h; omega)]
      simp only [List.cons_append]
      rw [List.take_append_drop]

lemma chunksOf_flatten (k : Nat) {α : Type} (l : List α) : (chunksOf k l).flatten = l :=
  chunksOf_flatten_aux k l.length l le_rfl

lemma chunksOf_ne_nil_aux (k : Nat) {α : Type} :
    ∀ (n : Nat) (l : List α), l.length ≤ n → ∀ c ∈ chunksOf k l, c ≠ [] := by
  intro n
  induction n with
  | zero =>
    intro l h
    have hl : l = [] := List.length_eq_zero.mp (by omega)
    subst hl
    simp [chunksOf]
  | succ n ih =>
    intro l h c hc
    match l with
    | [] => simp [chunksOf] at hc
    | x :: xs =>
      simp only [chunksOf, List.mem_cons] at hc
      rcases hc with hc | hc
      · subst hc
        simp
      · exact ih (xs.drop (k - 1))
          (by simp only [List.length_drop]; simp only [List.length_cons] at h; omega) c hc

lemma chunksOf_ne_nil (k : Nat) {α : Type} (l : List α) : ∀ c ∈ chunksOf k l, c ≠ [] :=
  chunksOf_ne_nil_aux k l.length l le_rfl

lemma chunksOf_chunk_length_aux (k : Nat) (hk : 1 ≤ k) {α : Type} :
    ∀ (n : Nat) (l : List α), l.length ≤ n → ∀ c ∈ chunksOf k l, c.length ≤ k := by
  intro n
  induction n with
  | zero =>
    intro l h
    have hl : l = [] := List.length_eq_zero.mp (by omega)
    subst hl
    simp [chunksOf]
  | succ n ih =>
    intro l h c hc
    match l with
    | [] => simp [chunksOf] at hc
    | x :: xs =>
      simp only [chunksOf, List.mem_cons] at hc
      rcases hc with hc | hc
      · subst hc
        simp only [List.length_cons, List.length_take]
        omega
      · exact ih (xs.drop (k - 1))
          (by simp only [List.length_drop]; simp only [List.length_cons] at h; omega) c hc

lemma chunksOf_length_100_aux {α : Type} :
    ∀ (n : Nat) (l : List α), l.length ≤ n →
      (chunksOf 100 l).length = (l.length + 99) / 100 := by
  intro n
  induction n with
  | zero =>
    intro l h
    have hl : l = [] := List.length_eq_zero.mp (by omega)
    subst hl
    simp [chunksOf]
  | succ n ih =>
    intro l h
    match l with
    | [] => simp [chunksOf]
    | x :: xs =>
      simp only [chunksOf, List.length_cons]
      rw [ih (xs.drop 99) (by simp only [List.length_drop]; simp only [List.length_cons] at h; omega)]
      simp only [List.length_drop, List.length_cons]
      omega

lemma chunksOf_length_50_aux {α : Type} :
    ∀ (n : Nat) (l : List α), l.length ≤ n →
      (chunksOf 50 l).length = (l.length + 49) / 50 := by
  intro n
  induction n with
  | zero =>
    intro l h
    have hl : l = [] := List.length_eq_zero.mp (by omega)
    subst hl
    simp [chunksOf]
  | succ n ih =>
    intro l h
    match l with
    | [] => simp [chunksOf]
    | x :: xs =>
      simp only [chunksOf, List.length_cons]
      rw [ih (xs.drop 49) (by simp only [List.length_drop]; simp only [List.length_cons] at h; omega)]
      simp only [List.length_drop, List.length_cons]
      omega

/-- C4: the batched email resolver partitions its input id list into
`ceil(n/100)` consecutive chunks (for 250 ids, `(250 + 99) / 100 = 3` bulk
requests), every chunk holds at most 100 ids, and the concatenation of the
chunks in request order is exactly the input list — so the chunks cover
every id exactly once, with no overlap, and the input is neither mutated
nor reordered. -/
theorem C4_batch_partition (account_ids : List String) :
    (JGU.batchRequests account_ids).length = (account_ids.length + 99) / 100 ∧
    ((JGU.batchRequests account_ids).all fun c => c.length ≤ 100) = true ∧
    (JGU.batchRequests account_ids).flatten = account_ids := by
  refine ⟨chunksOf_length_100_aux account_ids.length account_ids le_rfl, ?_,
    chunksOf_flatten 100 account_ids⟩
  rw [List.all_eq_true]
  intro c hc
  simpa using chunksOf_chunk_length_aux 100 (by omega) account_ids.length account_ids le_rfl c hc

lemma lookup_insertGroup_self (ug : List (String × Finset String)) (a g : String) :
    (JGU.insertGroup ug a g).lookup a = some (insert g ((ug.lookup a).getD ∅)) := by
  induction ug with
  | nil => simp [JGU.insertGroup, List.lookup]
  | cons p rest ih =>
    obtain ⟨b, s⟩ := p
    by_cases hb : b = a
    · subst hb
      simp [JGU.insertGroup, List.lookup]
    · have hab : (a == b) = false := beq_eq_false_iff_ne.mpr (Ne.symm hb)
      simp [JGU.insertGroup, hb, List.lookup, hab, ih]

lemma lookup_insertGroup_other (ug : List (String × Finset String)) (a b g : String)
    (hne : b ≠ a) :
    (JGU.insertGroup ug a g).lookup b = ug.lookup b := by
  induction ug with
  | nil =>
    have hba : (b == a) = false := beq_eq_false_iff_ne.mpr hne
    simp [JGU.insertGroup, List.lookup, hba]
  | cons p rest ih =>
    obtain ⟨c, s⟩ := p
    by_cases hc : c = a
    · subst hc
      have hbc : (b == c) = false := beq_eq_false_iff_ne.mpr hne
      simp [JGU.insertGroup, List.lookup, hbc]
    · by_cases hbc : b = c
      · subst hbc
        simp [JGU.insertGroup, hc, List.lookup]
      · have hbc2 : (b == c) = false := beq_eq_false_iff_ne.mpr hbc
        simp [JGU.insertGroup, hc, List.lookup, hbc2, ih]

lemma addGroupName_preserves_mem (g0 : String) :
    ∀ (l : List JGU.User) (ug : List (String × Finset String)) (a x : String)
      (s : Finset String),
      ug.lookup a = some s → x ∈ s →
      ∃ s2, (JGU.addGroupName ug l g0).lookup a = some s2 ∧ x ∈ s2 := by
  intro l
  induction l with
  | nil =>
    intro ug a x s h hx
    exact ⟨s, h, hx⟩
  | cons u rest ih =>
    intro ug a x s h hx
    cases hacc : u.accountId with
    | none =>
      simp only [JGU.addGroupName, hacc]
      exact ih ug a x s h hx
    | some b =>
      by_cases hb : b = ""
      · simp only [JGU.addGroupName, hacc, if_pos hb]
        exact ih ug a x s h hx
      · simp only [JGU.addGroupName, hacc, if_neg hb]
        by_cases hba : b = a
        · subst hba
          refine ih (JGU.insertGroup ug b g0) b x (insert g0 ((ug.lookup b).getD ∅))
            (lookup_insertGroup_self ug b g0) ?_
          rw [h]
          simp only [Option.getD_some]
          exact Finset.mem_insert_of_mem hx
        · refine ih (JGU.insertGroup ug b g0) a x s ?_ hx
          rw [lookup_insertGroup_other ug b a g0 (fun hh => hba (Eq.symm hh))]
          exact h

lemma addGroupName_adds (g0 : String) :
    ∀ (l : List JGU.User) (ug : List (String × Finset String)) (u : JGU.User) (a : String),
      u ∈ l → u.accountId = some a → a ≠ "" →
      ∃ s2, (JGU.addGroupName ug l g0).lookup a = some s2 ∧ g0 ∈ s2 := by
  intro l
  induction l with
  | nil =>
    intro ug u a hmem
    cases hmem
  | cons v rest ih =>
    intro ug u a hmem hacc hne
    rcases List.mem_cons.mp hmem with heq | htail
    · subst heq
      simp only [JGU.addGroupName, hacc, if_neg hne]
      exact addGroupName_preserves_mem g0 rest (JGU.insertGroup ug a g0) a g0
        (insert g0 ((ug.lookup a).getD ∅)) (lookup_insertGroup_self ug a g0)
        (Finset.mem_insert_self g0 _)
    · cases hacc2 : v.accountId with
      | none =>
        simp only [JGU.addGroupName, hacc2]
        exact ih ug u a htail hacc hne
      | some b =>
        by_cases hb : b = ""
        · simp only [JGU.addGroupName, hacc2, if_pos hb]
          exact ih ug u a htail hacc hne
        · simp only [JGU.addGroupName, hacc2, if_neg hb]
          exact ih (JGU.insertGroup ug b g0) u a htail hacc hne

/-- C1: the Contributors bucket handed to the renderer is the plain
concatenation of the internal and external contributor lists, so the
occurrences of a user present in both add up (at least twice in the
bucket), while the membership index built over all five input lists maps
that user's accountId to one set containing both contributor group names —
each exactly once, the per-account collection being a set. -/
theorem C1_contributors_concat_and_index (managers ci ce vi ve : List JGU.User)
    (gm gci gce gvi gve : String) (u : JGU.User) (a : String)
    (h1 : u ∈ ci) (h2 : u ∈ ce) (ha : u.accountId = some a) (hne : a ≠ "") :
    (JGU.all_contributors ci ce).count u = ci.count u + ce.count u ∧
    2 ≤ (JGU.all_contributors ci ce).count u ∧
    gci ∈ (((JGU.buildUserGroups managers ci ce vi ve gm gci gce gvi gve).lookup a).getD ∅) ∧
    gce ∈ (((JGU.buildUserGroups managers ci ce vi ve gm gci gce gvi gve).lookup a).getD ∅) ∧
    (((JGU.buildUserGroups managers ci ce vi ve gm gci gce gvi gve).lookup a).getD ∅).val.count gci = 1 ∧
    (((JGU.buildUserGroups managers ci ce vi ve gm gci gce gvi gve).lookup a).getD ∅).val.count gce = 1 := by
  have hcount : (JGU.all_contributors ci ce).count u = ci.count u + ce.count u :=
    List.count_append u ci ce
  have h2le : 2 ≤ (JGU.all_contributors ci ce).count u := by
    rw [hcount]
    have l1 : 1 ≤ ci.count u := List.one_le_count_iff.mpr h1
    have l2 : 1 ≤ ce.count u := List.one_le_count_iff.mpr h2
    omega
  obtain ⟨s1, hs1, hm1⟩ := addGroupName_adds gci ci (JGU.addGroupName [] managers gm) u a h1 ha hne
  obtain ⟨s2, hs2, hm2⟩ := addGroupName_preserves_mem gce ce _ a gci s1 hs1 hm1
  obtain ⟨s3, hs3, hm3⟩ := addGroupName_preserves_mem gvi vi _ a gci s2 hs2 hm2
  obtain ⟨s4, hs4, hm4⟩ := addGroupName_preserves_mem gve ve _ a gci s3 hs3 hm3
  obtain ⟨t1, ht1, hn1⟩ := addGroupName_adds gce ce
    (JGU.addGroupName (JGU.addGroupName [] managers gm) ci gci) u a h2 ha hne
  obtain ⟨t2, ht2, hn2⟩ := addGroupName_preserves_mem gvi vi _ a gce t1 ht1 hn1
  obtain ⟨t3, ht3, hn3⟩ := addGroupName_preserves_mem gve ve _ a gce t2 ht2 hn2
  have hfin : (JGU.buildUserGroups managers ci ce vi ve gm gci gce gvi gve).lookup a = some s4 := hs4
  have hfin2 : (JGU.buildUserGroups managers ci ce vi ve gm gci gce gvi gve).lookup a = some t3 := ht3
  have hst : t3 = s4 := Option.some.inj (hfin2.symm.trans hfin)
  subst hst
  rw [hfin]
  simp only [Option.getD_some]
  refine ⟨hcount, h2le, hm4, hn3, ?_, ?_⟩
  · exact Multiset.count_eq_one_of_mem t3.nodup (Finset.mem_def.mp hm4)
  · exact Multiset.count_eq_one_of_mem t3.nodup (Finset.mem_def.mp hn3)

/-- Witness for C1 at a one-user instance: the user sits in both contributor
lists, appears twice in the concatenated bucket, and its accountId maps to a
set holding both group names once each. -/
theorem C1_contributors_concat_and_index_witness :
    (JGU.all_contributors [{ accountId := some "x", displayName := "X" }]
        [{ accountId := some "x", displayName := "X" }]).count
        { accountId := some "x", displayName := "X" } =
      ([{ accountId := some "x", displayName := "X" }] : List JGU.User).count
        { accountId := some "x", displayName := "X" } +
      ([{ accountId := some "x", displayName := "X" }] : List JGU.User).count
        { accountId := some "x", displayName := "X" } ∧
    2 ≤ (JGU.all_contributors [{ accountId := some "x", displayName := "X" }]
        [{ accountId := some "x", displayName := "X" }]).count
        { accountId := some "x", displayName := "X" } ∧
    "GCI" ∈ (((JGU.buildUserGroups [] [{ accountId := some "x", displayName := "X" }]
        [{ accountId := some "x", displayName := "X" }] [] [] "GM" "GCI" "GCE" "GVI" "GVE").lookup "x").getD ∅) ∧
    "GCE" ∈ (((JGU.buildUserGroups [] [{ accountId := some "x", displayName := "X" }]
        [{ accountId := some "x", displayName := "X" }] [] [] "GM" "GCI" "GCE" "GVI" "GVE").lookup "x").getD ∅) ∧
    (((JGU.buildUserGroups [] [{ accountId := some "x", displayName := "X" }]
        [{ accountId := some "x", displayName := "X" }] [] [] "GM" "GCI" "GCE" "GVI" "GVE").lookup "x").getD ∅).val.count "GCI" = 1 ∧
    (((JGU.buildUserGroups [] [{ accountId := some "x", displayName := "X" }]
        [{ accountId := some "x", displayName := "X" }] [] [] "GM" "GCI" "GCE" "GVI" "GVE").lookup "x").getD ∅).val.count "GCE" = 1 :=
  C1_contributors_concat_and_index [] [{ accountId := some "x", displayName := "X" }]
    [{ accountId := some "x", displayName := "X" }] [] [] "GM" "GCI" "GCE" "GVI" "GVE"
    { accountId := some "x", displayName := "X" } "x"
    (by simp) (by simp) rfl (by decide)

lemma nb_lines_demo_abc : PDF.nb_lines PDF.demoMeasure "abc" 10 = 1 := by
  simp only [PDF.nb_lines, PDF.demoMeasure]
  rw [if_neg (by norm_num)]
  rw [show ("abc".length : ℚ) = 3 by norm_num [show "abc".length = 3 from rfl]]
  norm_num [Int.ceil_eq_iff]

lemma nb_lines_demo_q : PDF.nb_lines PDF.demoMeasure "abcdefghijklmnopq" 10 = 3 := by
  simp only [PDF.nb_lines, PDF.demoMeasure]
  rw [if_neg (by norm_num)]
  rw [show ("abcdefghijklmnopq".length : ℚ) = 17 by
    norm_num [show "abcdefghijklmnopq".length = 17 from rfl]]
  norm_num [Int.ceil_eq_iff]

lemma nb_lines_demo_j : PDF.nb_lines PDF.demoMeasure "abcdefghij" 10 = 2 := by
  simp only [PDF.nb_lines, PDF.demoMeasure]
  rw [if_neg (by norm_num)]
  rw [show ("abcdefghij".length : ℚ) = 10 by
    norm_num [show "abcdefghij".length = 10 from rfl]]
  norm_num [Int.ceil_eq_iff]

lemma table_row_cells_text (measure : String → ℚ) :
    ∀ (ts : List String) (ws : List ℚ), ts.length ≤ ws.length →
      (List.zipWith (fun t w => PDF.CellDraw.mk t (PDF.nb_lines measure t w)) ts ws).map
          PDF.CellDraw.text = ts := by
  intro ts
  induction ts with
  | nil => simp
  | cons t ts ih =>
    intro ws h
    match ws with
    | [] => simp at h
    | w :: ws2 =>
      simp only [List.zipWith_cons_cons, List.map_cons]
      rw [ih ws2 (by simpa using h)]

lemma table_row_cells_lines (measure : String → ℚ) (ts : List String) (ws : List ℚ) :
    (List.zipWith (fun t w => PDF.CellDraw.mk t (PDF.nb_lines measure t w)) ts ws).map
        PDF.CellDraw.lines =
      List.zipWith (fun t w => PDF.nb_lines measure t w) ts ws := by
  rw [List.map_zipWith]

/-- C5 counterexample: a concrete row whose three cells need 1, 3 and 2
lines.  The row height is indeed 3 times the line height, but the cells are
drawn at their own line counts (1, 3 and 2) — no cell is bottom-padded to 3
lines, so the claim's padding statement fails on this row. -/
theorem C5_counterexample_cells_not_padded :
    (PDF.table_row PDF.demoMeasure ["abc", "abcdefghijklmnopq", "abcdefghij"]
        [10, 10, 10] 6).rowHeight = 3 * 6 ∧
    (PDF.table_row PDF.demoMeasure ["abc", "abcdefghijklmnopq", "abcdefghij"]
        [10, 10, 10] 6).cells.map PDF.CellDraw.lines = [1, 3, 2] ∧
    ¬((PDF.table_row PDF.demoMeasure ["abc", "abcdefghijklmnopq", "abcdefghij"]
        [10, 10, 10] 6).cells.map PDF.CellDraw.lines = [3, 3, 3]) := by
  have hlines :
      (PDF.table_row PDF.demoMeasure ["abc", "abcdefghijklmnopq", "abcdefghij"]
        [10, 10, 10] 6).cells.map PDF.CellDraw.lines = [1, 3, 2] := by
    simp only [PDF.table_row, List.zipWith_cons_cons, List.zipWith_nil_left,
      List.map_cons, List.map_nil]
    rw [nb_lines_demo_abc, nb_lines_demo_q, nb_lines_demo_j]
  refine ⟨?_, hlines, ?_⟩
  · simp only [PDF.table_row, List.zipWith_cons_cons, List.zipWith_nil_left]
    rw [nb_lines_demo_abc, nb_lines_demo_q, nb_lines_demo_j]
    norm_num [List.foldl]
  · rw [hlines]
    decide

/-- C5 amended: for a row whose cells need 1, 3 and 2 lines, the rendered
row height equals 3 times the line height (the cursor advances by it), but
the cells are not padded: each cell's text is passed to the renderer
unmodified and occupies its own line count (1, 3 and 2 respectively), so
shorter cells' borders stop above the row's bottom. -/
theorem C5_amended_row_height_without_padding (measure : String → ℚ) (texts : List String)
    (widths : List ℚ) (lineHeight : ℚ)
    (hlen : texts.length = widths.length)
    (hcounts : List.zipWith (fun t w => PDF.nb_lines measure t w) texts widths = [1, 3, 2]) :
    (PDF.table_row measure texts widths lineHeight).rowHeight = 3 * lineHeight ∧
    (PDF.table_row measure texts widths lineHeight).cells.map PDF.CellDraw.text = texts ∧
    (PDF.table_row measure texts widths lineHeight).cells.map PDF.CellDraw.lines = [1, 3, 2] := by
  refine ⟨?_, ?_, ?_⟩
  · simp only [PDF.table_row]
    rw [hcounts]
    norm_num [List.foldl]
  · simp only [PDF.table_row]
    exact table_row_cells_text measure texts widths (le_of_eq hlen)
  · simp only [PDF.table_row]
    rw [table_row_cells_lines]
    exact hcounts

/-- Witness for C5 amended at the concrete { 1, 3, 2 } row. -/
theorem C5_amended_row_height_without_padding_witness :
    (PDF.table_row PDF.demoMeasure ["abc", "abcdefghijklmnopq", "abcdefghij"]
        [10, 10, 10] 6).rowHeight = 3 * 6 ∧
    (PDF.table_row PDF.demoMeasure ["abc", "abcdefghijklmnopq", "abcdefghij"]
        [10, 10, 10] 6).cells.map PDF.CellDraw.text =
      ["abc", "abcdefghijklmnopq", "abcdefghij"] ∧
    (PDF.table_row PDF.demoMeasure ["abc", "abcdefghijklmnopq", "abcdefghij"]
        [10, 10, 10] 6).cells.map PDF.CellDraw.lines = [1, 3, 2] :=
  C5_amended_row_height_without_padding PDF.demoMeasure
    ["abc", "abcdefghijklmnopq", "abcdefghij"] [10, 10, 10] 6 rfl
    (by simp only [List.zipWith_cons_cons, List.zipWith_nil_left]
        rw [nb_lines_demo_abc, nb_lines_demo_q, nb_lines_demo_j])

/-- C6 counterexample: a run of `fetch_audit_logs.py` with the token set but
`GOOGLE_CLOUD_BUCKET` unset (a required storage variable missing).  The run
issues its audit-log network requests first and only afterwards raises the
bucket configuration error, so the error is not raised before any network
call — and its message names only the bucket variable, not every missing
one in general. -/
theorem C6_counterexample_bucket_after_network :
    Trace.fetch_audit_logs_main_trace (some "tok") none (fun _ => ([] : List Nat))
        (fun _ => []) 5 =
      [Trace.Event.networkCall "GET /rest/api/3/auditing/record",
       Trace.Event.networkCall "GET /wiki/rest/api/audit",
       Trace.Event.configError Trace.bucketMsg] ∧
    (Trace.fetch_audit_logs_main_trace (some "tok") none (fun _ => ([] : List Nat))
        (fun _ => []) 5).head? =
      some (Trace.Event.networkCall "GET /rest/api/3/auditing/record") ∧
    Trace.Event.configError Trace.bucketMsg ∈
      Trace.fetch_audit_logs_main_trace (some "tok") none (fun _ => ([] : List Nat))
        (fun _ => []) 5 := by
  refine ⟨rfl, rfl, ?_⟩
  decide

/-- C6 amended: `jira_group_users.py` validates its six environment values
before any network call and raises a single ValueError whose fixed message
names all six variables (JIRA_SITE and ORG_ID carry defaults, so only the
other four can actually be missing); `fetch_audit_logs.py` raises for a
missing JIRA_BASIC_TOKEN before any network call, but a missing
GOOGLE_CLOUD_BUCKET is raised only after both paginated audit-log fetches
have issued all their network requests; and `restore_user.py` substitutes
the hardcoded default for a missing TARGET_EMAIL instead of raising. -/
theorem C6_amended_validation_order (env : Trace.JiraEnv) (runRest : List Trace.Event)
    (bucket targetEmailVar : Option String) (jiraApi confApi : Nat → List Nat) (fuel : Nat)
    (hmiss : Trace.jiraEnvMissing env = true) :
    Trace.jira_main_trace env runRest = [Trace.Event.configError Trace.jiraMissingMsg] ∧
    Trace.fetch_audit_logs_main_trace none bucket jiraApi confApi fuel =
      [Trace.Event.configError Trace.jiraTokenMsg] ∧
    (∀ (rJ rC : Nat) (xs ys : List Nat) (t : String), ¬(t = "") →
      Trace.auditFetchRun jiraApi fuel 0 [] = some (rJ, xs) →
      Trace.auditFetchRun confApi fuel 0 [] = some (rC, ys) →
      Trace.fetch_audit_logs_main_trace (some t) none jiraApi confApi fuel =
        List.replicate rJ (Trace.Event.networkCall "GET /rest/api/3/auditing/record") ++
          (List.replicate rC (Trace.Event.networkCall "GET /wiki/rest/api/audit") ++
            [Trace.Event.configError Trace.bucketMsg])) ∧
    (targetEmailVar = none → RU.targetEmailValue targetEmailVar = "default@example.com") := by
  refine ⟨by simp [Trace.jira_main_trace, hmiss], ?_, ?_, ?_⟩
  · simp [Trace.fetch_audit_logs_main_trace, Trace.truthy]
  · intro rJ rC xs ys t ht hJ hC
    simp [Trace.fetch_audit_logs_main_trace, Trace.truthy, ht, hJ, hC]
  · intro hte
    rw [hte]
    rfl

/-- Witness for C6 amended: an environment with every variable unset, a
concrete audit-log run with the token set, the bucket unset and one batch
per fetch, and an unset TARGET_EMAIL yielding the default. -/
theorem C6_amended_validation_order_witness :
    Trace.jira_main_trace
        { jiraSiteVar := none, basicAuth := none, bearerToken := none,
          projectKey := none, issueKey := none, orgIdVar := none } [] =
      [Trace.Event.configError Trace.jiraMissingMsg] ∧
    Trace.fetch_audit_logs_main_trace none none (fun _ => ([] : List Nat)) (fun _ => []) 3 =
      [Trace.Event.configError Trace.jiraTokenMsg] ∧
    Trace.fetch_audit_logs_main_trace (some "tok") none (fun _ => ([] : List Nat))
        (fun _ => []) 3 =
      List.replicate 1 (Trace.Event.networkCall "GET /rest/api/3/auditing/record") ++
        (List.replicate 1 (Trace.Event.networkCall "GET /wiki/rest/api/audit") ++
          [Trace.Event.configError Trace.bucketMsg]) ∧
    RU.targetEmailValue none = "default@example.com" := by
  have h := C6_amended_validation_order
    { jiraSiteVar := none, basicAuth := none, bearerToken := none,
      projectKey := none, issueKey := none, orgIdVar := none } []
    none none (fun _ => ([] : List Nat)) (fun _ => []) 3 (by decide)
  exact ⟨h.1, h.2.1, h.2.2.1 1 1 [] [] "tok" (by decide) (by decide) (by decide),
    h.2.2.2 rfl⟩

lemma fetchRun_no_match (target : String) :
    ∀ (pages : List (List RU.DirUser)) (found : Option String),
      (∀ p ∈ pages, p ≠ []) →
      (∀ p ∈ pages, p.find? (RU.emailMatches target) = none) →
      RU.fetchAccountIdRun target pages found = (pages.length + 1, found) := by
  intro pages
  induction pages with
  | nil =>
    intro found _ _
    simp [RU.fetchAccountIdRun]
  | cons page rest ih =>
    intro found hne hnm
    have hp : page ≠ [] := hne page (by simp)
    have hm : page.find? (RU.emailMatches target) = none := hnm page (by simp)
    match page, hp with
    | x :: xs, _ =>
      simp only [RU.fetchAccountIdRun, List.isEmpty_cons, Bool.false_eq_true, if_false, hm]
      rw [ih found (fun p hp2 => hne p (by simp [hp2])) (fun p hp2 => hnm p (by simp [hp2]))]
      simp [List.length_cons]

lemma fetchRun_found (target : String) :
    ∀ (p : Nat) (pages : List (List RU.DirUser)) (found : Option String)
      (pg : List RU.DirUser) (u : RU.DirUser),
      (∀ q ∈ pages.take p, q.find? (RU.emailMatches target) = none) →
      (∀ q ∈ pages, q ≠ []) →
      pages.get? p = some pg →
      pg.find? (RU.emailMatches target) = some u →
      ¬(u.accountId.getD "" = "") →
      RU.fetchAccountIdRun target pages found = (p + 1, some (u.accountId.getD "")) := by
  intro p
  induction p with
  | zero =>
    intro pages found pg u _ hne hget hfind hid
    match pages with
    | [] => simp at hget
    | q :: rest =>
      have hq : q = pg := by simpa using hget
      subst hq
      match q, hfind with
      | x :: xs, hfind =>
        have hbeq : (u.accountId.getD "" == "") = false := beq_eq_false_iff_ne.mpr hid
        simp only [RU.fetchAccountIdRun, List.isEmpty_cons, Bool.false_eq_true, if_false,
          hfind, hbeq]
  | succ p ih =>
    intro pages found pg u htake hne hget hfind hid
    match pages with
    | [] => simp at hget
    | q :: rest =>
      have hq : q.find? (RU.emailMatches target) = none := htake q (by simp)
      have hqne : q ≠ [] := hne q (by simp)
      match q, hqne with
      | x :: xs, _ =>
        simp only [RU.fetchAccountIdRun, List.isEmpty_cons, Bool.false_eq_true, if_false, hq]
        rw [ih rest found pg u (fun r hr => htake r (by simp [hr]))
          (fun r hr => hne r (by simp [hr])) (by simpa using hget) hfind hid]

/-- C8 counterexample: a directory of 120 users none of whom matches the
target e-mail.  The lookup scans pages 0, 1 and 2 and then issues a fourth
page request (which returns the empty page) before stopping — four search
requests, not at most three as claimed. -/
theorem C8_counterexample_four_requests :
    RU.fetch_account_id "b@x"
        (List.replicate 120 { emailAddress := some "a@x", accountId := some "id" }) =
      (4, none) ∧
    ¬((RU.fetch_account_id "b@x"
        (List.replicate 120 { emailAddress := some "a@x", accountId := some "id" })).1 ≤ 3) := by
  have hnm : ∀ p ∈ chunksOf 50 (List.replicate 120
      ({ emailAddress := some "a@x", accountId := some "id" } : RU.DirUser)),
      p.find? (RU.emailMatches "b@x") = none := by
    intro p hp
    rw [List.find?_eq_none]
    intro x hx
    have hxl : x ∈ List.replicate 120
        ({ emailAddress := some "a@x", accountId := some "id" } : RU.DirUser) := by
      rw [← chunksOf_flatten 50 (List.replicate 120
        ({ emailAddress := some "a@x", accountId := some "id" } : RU.DirUser))]
      exact List.mem_flatten.mpr ⟨p, hp, hx⟩
    have hxu := List.eq_of_mem_replicate hxl
    subst hxu
    decide
  have hlen : (chunksOf 50 (List.replicate 120
      ({ emailAddress := some "a@x", accountId := some "id" } : RU.DirUser))).length = 3 := by
    rw [chunksOf_length_50_aux (List.replicate 120
      ({ emailAddress := some "a@x", accountId := some "id" } : RU.DirUser)).length _ le_rfl]
    simp
  have hrun := fetchRun_no_match "b@x" (chunksOf 50 (List.replicate 120
      ({ emailAddress := some "a@x", accountId := some "id" } : RU.DirUser)))
    none (chunksOf_ne_nil 50 _) hnm
  have hmain : RU.fetch_account_id "b@x"
      (List.replicate 120 { emailAddress := some "a@x", accountId := some "id" }) =
      (4, none) := by
    simp only [RU.fetch_account_id]
    rw [hrun, hlen]
  refine ⟨hmain, ?_⟩
  rw [hmain]
  decide

/-- C8 amended: over a 120-user directory served in pages of 50, the lookup
stops as soon as a page contains a user whose e-mail matches the target
case-insensitively and whose accountId is non-empty — it issues exactly
`p + 1 ≤ 3` requests when the first such page is page `p`, returning that
user's accountId; when no user matches, it issues exactly 4 requests (the
fourth returning an empty page) and finds no account. -/
theorem C8_amended_requests_bound (directory : List RU.DirUser) (target : String)
    (hlen : directory.length = 120) :
    ((∀ pg ∈ chunksOf 50 directory, pg.find? (RU.emailMatches target) = none) →
      RU.fetch_account_id target directory = (4, none)) ∧
    (∀ (p : Nat) (pg : List RU.DirUser) (u : RU.DirUser),
      (∀ q ∈ (chunksOf 50 directory).take p, q.find? (RU.emailMatches target) = none) →
      (chunksOf 50 directory).get? p = some pg →
      pg.find? (RU.emailMatches target) = some u →
      ¬(u.accountId.getD "" = "") →
      RU.fetch_account_id target directory = (p + 1, some (u.accountId.getD "")) ∧ p + 1 ≤ 3) := by
  have hchlen : (chunksOf 50 directory).length = 3 := by
    rw [chunksOf_length_50_aux directory.length directory le_rfl, hlen]
  constructor
  · intro hnm
    simp only [RU.fetch_account_id]
    rw [fetchRun_no_match target (chunksOf 50 directory) none
      (chunksOf_ne_nil 50 directory) hnm, hchlen]
  · intro p pg u htake hget hfind hid
    have hp3 : p < 3 := by
      by_contra hc
      have hnone : (chunksOf 50 directory).get? p = none := by
        rw [List.get?_eq_none]
        omega
      rw [hnone] at hget
      cases hget
    refine ⟨?_, by omega⟩
    simp only [RU.fetch_account_id]
    exact fetchRun_found target p (chunksOf 50 directory) none pg u htake
      (chunksOf_ne_nil 50 directory) hget hfind hid

/-- Witness for C8 amended: a 120-user directory whose first user matches
the target e-mail up to case; a single request suffices and that user's
accountId comes back. -/
theorem C8_amended_requests_bound_witness :
    RU.fetch_account_id "A@x"
        (({ emailAddress := some "a@X", accountId := some "id7" } : RU.DirUser) ::
          List.replicate 119 { emailAddress := some "z@x", accountId := some "id" }) =
      (1, some "id7") ∧ 1 ≤ 3 :=
  (C8_amended_requests_bound
    (({ emailAddress := some "a@X", accountId := some "id7" } : RU.DirUser) ::
      List.replicate 119 { emailAddress := some "z@x", accountId := some "id" })
    "A@x" (by simp)).2 0
    (({ emailAddress := some "a@X", accountId := some "id7" } : RU.DirUser) ::
      List.replicate 49 { emailAddress := some "z@x", accountId := some "id" })
    { emailAddress := some "a@X", accountId := some "id7" }
    (by simp)
    (by simp [chunksOf, List.take_replicate])
    (by decide)
    (by decide)

/-- C9 counterexample: the value 10^18 parses as an integer, yet the
converter returns it unchanged (not an ISO string): the corresponding
instant lies outside the range the datetime library accepts, the library
raises, and the bare `except` returns the input. -/
theorem C9_counterexample_parsable_but_unconverted :
    FAL.pyInt (.int 1000000000000000000) = some 1000000000000000000 ∧
    FAL.convert_ms_to_iso (.int 1000000000000000000) = .int 1000000000000000000 ∧
    (FAL.convert_ms_to_iso (.int 1000000000000000000)).isStr = false := by
  exact ⟨rfl, rfl, rfl⟩

/-- C9 amended: the converter is total and never raises; an input that
parses as an integer whose instant lies inside the supported datetime range
is converted to the ISO 8601 UTC string of that epoch-millisecond instant
(with the timestamp division taken exactly), while an input that fails to
parse (non-numeric string, None) or parses to an out-of-range instant is
returned unchanged. -/
theorem C9_amended_total_conversion (v : FAL.PyVal) :
    (FAL.pyInt v = none → FAL.convert_ms_to_iso v = v) ∧
    (∀ ms : ℤ, FAL.pyInt v = some ms → FAL.msInRange ms = true →
      FAL.convert_ms_to_iso v = .str (FAL.isoOfMs ms)) ∧
    (∀ ms : ℤ, FAL.pyInt v = some ms → FAL.msInRange ms = false →
      FAL.convert_ms_to_iso v = v) := by
  refine ⟨fun h => ?_, fun ms h hr => ?_, fun ms h hr => ?_⟩
  · simp [FAL.convert_ms_to_iso, h]
  · simp [FAL.convert_ms_to_iso, h, hr]
  · simp [FAL.convert_ms_to_iso, h, hr]

/-- Witness for C9 amended: the string " 123 " parses to 123, is in range,
and converts to the ISO string of 123 ms past the epoch. -/
theorem C9_amended_total_conversion_witness :
    FAL.convert_ms_to_iso (.str " 123 ") = .str "1970-01-01T00:00:00.123000+00:00" := by
  have h := (C9_amended_total_conversion (.str " 123 ")).2.1 123 (by decide) (by decide)
  rw [h]
  decide

lemma lexLe_total : ∀ as bs, CSV.lexLe as bs = true ∨ CSV.lexLe bs as = true := by
  intro as
  induction as with
  | nil =>
    intro bs
    left
    simp [CSV.lexLe]
  | cons a as ih =>
    intro bs
    match bs with
    | [] =>
      right
      simp [CSV.lexLe]
    | b :: bs =>
      rcases lt_trichotomy a b with h | h | h
      · left
        simp only [CSV.lexLe]
        rw [if_pos h]
      · subst h
        rcases ih bs with h2 | h2
        · left
          simp only [CSV.lexLe]
          rw [if_neg (lt_irrefl a)]
          simpa using h2
        · right
          simp only [CSV.lexLe]
          rw [if_neg (lt_irrefl a)]
          simpa using h2
      · right
        simp only [CSV.lexLe]
        rw [if_pos h]

lemma lexLe_trans :
    ∀ as bs cs, CSV.lexLe as bs = true → CSV.lexLe bs cs = true → CSV.lexLe as cs = true := by
  intro as
  induction as with
  | nil =>
    intro bs cs _ _
    simp [CSV.lexLe]
  | cons a as ih =>
    intro bs cs h1 h2
    match bs, cs with
    | [], _ => simp [CSV.lexLe] at h1
    | b :: bs, [] => simp [CSV.lexLe] at h2
    | b :: bs, c :: cs =>
      simp only [CSV.lexLe] at h1 h2 ⊢
      by_cases hab : a < b
      · by_cases hbc : b < c
        · rw [if_pos (lt_trans hab hbc)]
        · rw [if_neg hbc] at h2
          by_cases hbc2 : b = c
          · subst hbc2
            rw [if_pos hab]
          · rw [if_neg hbc2] at h2
            cases h2
      · rw [if_neg hab] at h1
        by_cases hab2 : a = b
        · rw [if_pos hab2] at h1
          subst hab2
          by_cases hac : a < c
          · rw [if_pos hac]
          · rw [if_neg hac] at h2 ⊢
            by_cases hac2 : a = c
            · rw [if_pos hac2] at h2 ⊢
              exact ih bs cs h1 h2
            · rw [if_neg hac2] at h2
              cases h2
        · rw [if_neg hab2] at h1
          cases h1

/-- C10: on a non-empty record list, `write_csv` emits a header equal to
the sorted, deduplicated union of all keys appearing in any record (sorted
in the code-point order Python's `sorted` applies to strings), followed by
one row per record in input order, each row reading the header's keys in
order with an absent key rendered as the empty cell; on the empty record
list it creates no file at all and returns without error. -/
theorem C10_write_csv_shape (records : List CSV.Rec) (hdr : List String)
    (rows : List (List String))
    (h : CSV.write_csv records = some (hdr, rows)) :
    CSV.write_csv [] = none ∧
    records ≠ [] ∧
    List.Sorted CSV.strLe hdr ∧
    hdr.Nodup ∧
    hdr.Perm ((records.flatMap CSV.recKeys).dedup) ∧
    rows = records.map (CSV.csvRow hdr) ∧
    rows.length = records.length := by
  have hne : records ≠ [] := by
    intro hnil
    subst hnil
    simp [CSV.write_csv] at h
  simp only [CSV.write_csv, if_neg hne] at h
  have hpair := Option.some.inj h
  have hh : CSV.allKeysSorted records = hdr := congrArg Prod.fst hpair
  have hr : records.map (CSV.csvRow (CSV.allKeysSorted records)) = rows := congrArg Prod.snd hpair
  subst hh
  refine ⟨by simp [CSV.write_csv], hne, ?_, ?_, ?_, hr.symm, ?_⟩
  · exact @List.sorted_insertionSort String CSV.strLe CSV.strLeDec
      ⟨fun a b => lexLe_total a.data b.data⟩
      ⟨fun a b c => lexLe_trans a.data b.data c.data⟩
      ((records.flatMap CSV.recKeys).dedup)
  · exact ((@List.perm_insertionSort String CSV.strLe CSV.strLeDec
      ((records.flatMap CSV.recKeys).dedup)).nodup_iff).mpr (List.nodup_dedup _)
  · exact @List.perm_insertionSort String CSV.strLe CSV.strLeDec
      ((records.flatMap CSV.recKeys).dedup)
  · rw [← hr]
    simp

/-- Witness for C10 at two one-field records with distinct keys. -/
theorem C10_write_csv_shape_witness :
    CSV.write_csv [] = none ∧
    ([[("b", "1")], [("a", "2")]] : List CSV.Rec) ≠ [] ∧
    List.Sorted CSV.strLe ["a", "b"] ∧
    (["a", "b"] : List String).Nodup ∧
    (["a", "b"] : List String).Perm
      ((([[("b", "1")], [("a", "2")]] : List CSV.Rec).flatMap CSV.recKeys).dedup) ∧
    ([["", "1"], ["2", ""]] : List (List String)) =
      ([[("b", "1")], [("a", "2")]] : List CSV.Rec).map (CSV.csvRow ["a", "b"]) ∧
    ([["", "1"], ["2", ""]] : List (List String)).length =
      ([[("b", "1")], [("a", "2")]] : List CSV.Rec).length :=
  C10_write_csv_shape [[("b", "1")], [("a", "2")]] ["a", "b"] [["", "1"], ["2", ""]]
    (by decide)
